import Mathlib

/-!
Verification of `MbsClient` (src/mbsclient.h, src/mbsclient.cpp), a client for a
GSI MBS stream server that buffers decoded events in a thread-safe FIFO.

Shallow embedding: the client's mutable fields become a `ClientState` record and
each member function becomes a pure state-transformer.  External adapter results
(`f_evt_get_open` success, the outcomes of `f_evt_get_event` /
`f_evt_get_subevent`) are supplied as explicit parameters.  Machine integers are
`Nat` / `Int` with explicit `% 2 ^ 64` where C++ `size_t` / `uint64_t` overflow
matters.  Strings are `List Char`.
-/

namespace MbsVerify

/-! ### Models of std::string / std::filesystem::path operations -/

/-- Model of `std::string::rfind(c)`: index of the last occurrence of `c`,
`none` when `c` does not occur (C++ returns `npos`). -/
def rfindChar (c : Char) : List Char → Option Nat
  | [] => none
  | x :: xs =>
    match rfindChar c xs with
    | some i => some (i + 1)
    | none => if x = c then some 0 else none

/-- Model of `std::string::substr(pos, cnt)` for `pos ≤ size` (the only way the
source calls it): take `cnt` characters from `pos`, clamped at the end. -/
def substrCpp (l : List Char) (pos cnt : Nat) : List Char :=
  (l.drop pos).take cnt

/-- Model of `fs::path::filename()` for slash-normal paths (no trailing or
duplicated separator in the component the source inspects): the part after the
last `/`, or the whole string when there is no `/`. -/
def pathFilename (p : List Char) : List Char :=
  match rfindChar '/' p with
  | none => p
  | some i => p.drop (i + 1)

/-- Model of `fs::path::parent_path()` for slash-normal paths: the part before
the last `/`, or the empty string when there is no `/`. -/
def pathParent (p : List Char) : List Char :=
  match rfindChar '/' p with
  | none => []
  | some i => p.take i

/-- Longest run of decimal digits at the front of the string. -/
def takeDigits : List Char → List Char
  | [] => []
  | c :: cs => if c.isDigit then c :: takeDigits cs else []

/-- Numeric value of a digit string (most significant digit first). -/
def digitsToNat (l : List Char) : Nat :=
  l.foldl (fun a c => 10 * a + (c.toNat - 48)) 0

/-- Model of `std::stoul` (returning `unsigned long`, 64-bit on the target) for
arguments that start with a digit or a non-digit character (the seeker never
passes leading whitespace or a sign): parse the leading digit run; `none`
models the exceptions caught by the seeker's `catch(...)`: the
`std::invalid_argument` thrown when no digits can be parsed, and the
`std::out_of_range` thrown when the value exceeds the `unsigned long` range. -/
def stoulModel (l : List Char) : Option Nat :=
  let ds := takeDigits l
  if ds = [] then none
  else if 2 ^ 64 ≤ digitsToNat ds then none
  else some (digitsToNat ds)

/-- Model of `ss << std::setw(w) << std::setfill('0') << n`: the decimal
representation of `n`, left-padded with `'0'` to width `w` (never truncated). -/
def zeroPad (w n : Nat) : List Char :=
  let s := (Nat.repr n).toList
  List.replicate (w - s.length) '0' ++ s

/-! ### File Sequence Discoverer (MbsClient::newFileSeeker, lines 164-212)

One loop iteration's successor-name computation, extracted from the body of
`newFileSeeker`.  `none` models the early `return` paths (no `'_'` in the file
name, or `std::stoul` throwing). -/

/-- Successor file name computed by one iteration of `MbsClient::newFileSeeker`
from the last list entry `fullpath` (src/mbsclient.cpp lines 168-197):
split off the last path component, find the last `'_'`, cut the number part as
`substr(pos+1, size-pos-5)` (`size_t` arithmetic: the count wraps modulo
`2 ^ 64` when `size < pos + 5`), parse it with `stoul` into the `uint32_t`
variable `number` (line 181: the parsed value truncates modulo `2 ^ 32`, and
`number + 1` is `unsigned int` arithmetic, again modulo `2 ^ 32`), and rebuild
`dir + "/" + stemPart + "_" + zero-padded (number+1) + ".lmd"`. -/
def newFileSeekerNext (fullpath : List Char) : Option (List Char) :=
  let filename := pathFilename fullpath
  let dirPath := pathParent fullpath
  (rfindChar '_' filename).bind (fun pos =>
    let cnt : Nat := (((filename.length : Int) - (pos : Int) - 5).emod (2 ^ 64)).toNat
    let numberPart := substrCpp filename (pos + 1) cnt
    (stoulModel numberPart).map (fun stoulResult =>
      let number := stoulResult % 2 ^ 32
      dirPath ++ '/' ::
        (filename.take pos ++ '_' ::
          (zeroPad numberPart.length ((number + 1) % 2 ^ 32) ++ ".lmd".toList))))

/-! ### Data model -/

/-- MbsClient::MbsEvent: a timestamp (we record the `uint64_t` value computed at
line 317 that is stored into the `long long` field) and the payload words
(`std::vector<uint32_t>`). -/
structure MbsEvent where
  timestamp : Nat
  data : List Nat
deriving DecidableEq

/-- Value of `static_cast<uint64_t>` applied to a signed 32-bit (`INTS4`)
value: two's-complement conversion, i.e. the value modulo `2 ^ 64`. -/
def toUInt64Val (x : Int) : Nat := (x.emod (2 ^ 64)).toNat

/-- Value of an `int32_t` word stored into a `std::vector<uint32_t>` slot:
the value modulo `2 ^ 32`. -/
def toUInt32Val (x : Int) : Nat := (x.emod (2 ^ 32)).toNat

/-- Timestamp computed at lines 317-318:
`static_cast<uint64_t>(l_time[0]) * 1000 + static_cast<uint64_t>(l_time[1])`
in `uint64_t` arithmetic. -/
def mbsTimestampOf (timeHigh timeLow : Int) : Nat :=
  (toUInt64Val timeHigh * 1000 + toUInt64Val timeLow) % 2 ^ 64

/-- Mutable fields of class MbsClient (src/mbsclient.h lines 175-198).  The two
`std::vector<std::thread>` members are modelled by their lengths; the three
adapter-owned pointers (`inputChannel`, `fileHeader`, `bufferHeader`) by
non-null flags.  `size_t` counters are modelled as `Nat` (their `2 ^ 64`
wrap-around is unreachable in any session the claims quantify over). -/
structure ClientState where
  eventBuffer : List MbsEvent
  filelist : List (List Char)
  currentFileIndex : Nat
  disconnected : Bool
  receiverThread : Nat
  fileseekThread : Nat
  inputChannel : Bool
  fileHeader : Bool
  bufferHeader : Bool
  mbsSource : List Char
  nEventsInBuffer : Nat
  nReceivedEvents : Nat
  sizeOfReceivedData : Nat
  noMoreEvents : Bool
  maxEventBufferSize : Nat
deriving DecidableEq

/-- State established by the constructor MbsClient::MbsClient (lines 21-32). -/
def initState : ClientState where
  eventBuffer := []
  filelist := []
  currentFileIndex := 0
  disconnected := true
  receiverThread := 0
  fileseekThread := 0
  inputChannel := false
  fileHeader := false
  bufferHeader := false
  mbsSource := "not connected".toList
  nEventsInBuffer := 0
  nReceivedEvents := 0
  sizeOfReceivedData := 0
  noMoreEvents := false
  maxEventBufferSize := 1000000

/-- MbsClient::ConnectionOption (src/mbsclient.h line 60). -/
inductive ConnectionOption where
  | stream
  | file
  | automatic
deriving DecidableEq

/-- The two GETEVT source types the client passes to the adapter
(`GETEVT__FILE` / `GETEVT__STREAM`). -/
inductive SrcType where
  | fileT
  | streamT
deriving DecidableEq

/-- Extension test of MbsClient::connect lines 60-63:
`mbsSource.substr(mbsSource.size()-3, mbsSource.size()-1)` (the count clamps,
so this is the last three characters whenever the length is at least 4, and
connect only reaches this with length ≥ 5) lower-cased with `::tolower`. -/
def fileExtOf (s : List Char) : List Char :=
  (substrCpp s (s.length - 3) (s.length - 1)).map Char.toLower

/-- Source-type resolution of MbsClient::connect lines 47-67.  `none` models
the early `return false` when auto-detect rejects a short identifier. -/
def resolveSourceType (mbsSource : List Char) (conOpt : ConnectionOption) :
    Option SrcType :=
  match conOpt with
  | .file => some SrcType.fileT
  | .stream => some SrcType.streamT
  | .automatic =>
    if mbsSource.length < 5 then none
    else if fileExtOf mbsSource = "lmd".toList then some SrcType.fileT
    else some SrcType.streamT

/-- Extension of a file name per the spec's words ("filename extension"), for
comparison with the code's last-three-characters test: the part after the last
`'.'`, lower-cased; the whole name has no extension when it has no `'.'`. -/
def specFilenameExtension (s : List Char) : List Char :=
  match rfindChar '.' s with
  | none => []
  | some i => (s.drop (i + 1)).map Char.toLower

/-! ### Connection Manager -/

/-- MbsClient::openLmdFile (lines 120-162).  The outcome of the adapter call
`f_evt_get_open` is the parameter `openOk`; `f_evt_control()` always yields a
non-null channel.  The adapter-owned `fileHeader` is abstracted as filled
exactly on success.  `sourceType` is passed through to the adapter only. -/
def openLmdFile (s : ClientState) (src : List Char) (sourceType : SrcType)
    (openOk : Bool) : ClientState × Bool :=
  let s1 := { s with inputChannel := true, fileHeader := false, bufferHeader := false }
  if openOk then
    ({ s1 with mbsSource := src, fileHeader := true, disconnected := false }, true)
  else (s1, false)

/-- MbsClient::connect(mbsSource, conOpt, poolForNextFile) (lines 40-93).
Counters are reset first; auto-detect may fail; `poolForNextFile` is forced to
`false` for non-file source types; the source is appended to `filelist` and
`filelist.at(0)` is opened; on success the seeker thread (if still requested)
and the receiver thread are spawned. -/
def connect (s : ClientState) (mbsSource : List Char) (conOpt : ConnectionOption)
    (poolForNextFile : Bool) (openOk : Bool) : ClientState × Bool :=
  let s1 := { s with sizeOfReceivedData := 0, nEventsInBuffer := 0,
                     nReceivedEvents := 0, noMoreEvents := false }
  match resolveSourceType mbsSource conOpt with
  | none => (s1, false)
  | some sourceType =>
    let pool := if sourceType ≠ SrcType.fileT then false else poolForNextFile
    let s2 := { s1 with filelist := s1.filelist ++ [mbsSource] }
    let r := openLmdFile s2 (s2.filelist.headD []) sourceType openOk
    if r.2 then
      let s4 := if pool then { r.1 with fileseekThread := r.1.fileseekThread + 1 } else r.1
      ({ s4 with receiverThread := s4.receiverThread + 1 }, true)
    else (r.1, false)

/-- MbsClient::connect(fileList, poolForNextFile) (lines 95-117): fails on an
empty list before touching any state; otherwise replaces `filelist`, resets the
counters, opens `fileList.at(0)` and spawns the workers. -/
def connectFileList (s : ClientState) (fileList : List (List Char))
    (poolForNextFile : Bool) (openOk : Bool) : ClientState × Bool :=
  if fileList.length = 0 then (s, false)
  else
    let s1 := { s with filelist := fileList, sizeOfReceivedData := 0,
                       nEventsInBuffer := 0, nReceivedEvents := 0, noMoreEvents := false }
    let r := openLmdFile s1 (fileList.headD []) SrcType.fileT openOk
    if r.2 then
      let s3 := if poolForNextFile then { r.1 with fileseekThread := r.1.fileseekThread + 1 }
                else r.1
      ({ s3 with receiverThread := s3.receiverThread + 1 }, true)
    else (r.1, false)

/-- MbsClient::disconnect (lines 216-244): set the stop flag, join and clear
both thread vectors, close and null the channel, null the header views, reset
the source name; always returns true. -/
def disconnect (s : ClientState) : ClientState × Bool :=
  ({ s with disconnected := true, receiverThread := 0, fileseekThread := 0,
            inputChannel := false, fileHeader := false, bufferHeader := false,
            mbsSource := "not connected".toList }, true)

/-- MbsClient::isConnected (src/mbsclient.h line 100). -/
def isConnected (s : ClientState) : Bool := !s.disconnected

/-- MbsClient::getEventServerName (lines 400-403). -/
def getEventServerName (s : ClientState) : List Char := s.mbsSource

/-- MbsClient::getEventData (lines 367-383).  `gotLock` is the outcome of the
`std::try_to_lock` acquisition: when it fails the body is skipped entirely;
when it succeeds, `min(nElementsToCopy, eventBuffer.size())` events are moved
from the buffer head to the end of `dest`, and `nEventsInBuffer` is refreshed. -/
def getEventData (s : ClientState) (dest : List MbsEvent) (nElementsToCopy : Nat)
    (gotLock : Bool) : ClientState × List MbsEvent :=
  if gotLock then
    let n := min nElementsToCopy s.eventBuffer.length
    let dest1 := if 0 < n then dest ++ s.eventBuffer.take n else dest
    let buf1 := if 0 < n then s.eventBuffer.drop n else s.eventBuffer
    ({ s with eventBuffer := buf1, nEventsInBuffer := buf1.length }, dest1)
  else (s, dest)

/-! ### Ingestion Worker (MbsClient::eventReceiver, lines 251-353) -/

/-- One successful `f_evt_get_event` fetch: the buffer header's two 32-bit time
components (`INTS4`, i.e. signed) and the results of the `f_evt_get_subevent`
calls of the inner loop, up to but excluding the terminating `GETEVT__NOMORE`:
`some payload` for a `GETEVT__SUCCESS` call (the adapter's `dataLength` is the
payload's length in `int32_t` words), `none` for any other result. -/
structure FetchData where
  timeHigh : Int
  timeLow : Int
  subcalls : List (Option (List Int))

/-- One iteration of the subevent loop (lines 327-346): a successful call with
`dataLength > 0` copies the payload into the event, pushes it, and bumps the
byte counter by `dataLength * sizeof(int32_t)` and the event counter by one;
every other iteration changes nothing. -/
def subeventStep (ts : Nat) (s : ClientState) (sc : Option (List Int)) : ClientState :=
  match sc with
  | none => s
  | some payload =>
    if 0 < payload.length then
      { s with eventBuffer := s.eventBuffer ++ [⟨ts, payload.map toUInt32Val⟩],
               sizeOfReceivedData := s.sizeOfReceivedData + payload.length * 4,
               nReceivedEvents := s.nReceivedEvents + 1 }
    else s

/-- Success branch of eventReceiver for one fetch (lines 303-348): clear
`noMoreEvents`, compute the shared timestamp, run the subevent loop under the
queue lock, then refresh `nEventsInBuffer` from the buffer size. -/
def processFetch (s : ClientState) (f : FetchData) : ClientState :=
  let ts := mbsTimestampOf f.timeHigh f.timeLow
  let s2 := f.subcalls.foldl (subeventStep ts) { s with noMoreEvents := false }
  { s2 with nEventsInBuffer := s2.eventBuffer.length }

/-- Events one fetch appends, in subevent order: one per successful subevent
call with non-empty payload, all stamped with the fetch's one timestamp. -/
def pushedOfFetch (f : FetchData) : List MbsEvent :=
  ((f.subcalls.filterMap id).filter (fun p => 0 < p.length)).map
    (fun p => ⟨mbsTimestampOf f.timeHigh f.timeLow, p.map toUInt32Val⟩)

/-- Outcome of one `f_evt_get_event` call, as dispatched by eventReceiver.
`noMore` carries the adapter outcome of the `openLmdFile` call made when a
further file is available. -/
inductive FetchOutcome where
  | success (f : FetchData)
  | noMore (openNextOk : Bool)
  | fragment
  | other

/-- The eventReceiver loop (lines 255-349) driven by a finite schedule of fetch
outcomes.  The loop guard `inputChannel != nullptr && disconnected == false` is
checked each iteration; `GETEVT__NOMORE` advances to `filelist.at(++currentFileIndex)`
when available (a failed open exits the worker, line 278) and otherwise sets
`noMoreEvents`; fragments and other non-success results only back off. -/
def receiverRun (s : ClientState) : List FetchOutcome → ClientState
  | [] => s
  | o :: rest =>
    if s.inputChannel && !s.disconnected then
      match o with
      | .success f => receiverRun (processFetch s f) rest
      | .noMore ok =>
        if s.currentFileIndex + 1 < s.filelist.length then
          let s1 := { s with currentFileIndex := s.currentFileIndex + 1 }
          let r := openLmdFile s1 (s1.filelist.getD s1.currentFileIndex []) SrcType.fileT ok
          if r.2 then receiverRun r.1 rest else r.1
        else receiverRun { s with noMoreEvents := true } rest
      | .fragment => receiverRun s rest
      | .other => receiverRun s rest
    else s

/-! ### Push/drain trace model (Event Buffer)

`push` is one `eventBuffer.push_back` performed by the ingestion worker under
the blocking queue lock (line 340); `drain` is one `getEventData` call whose
try-lock outcome is `gotLock` (lines 370-379). -/

/-- One buffer operation of an interleaved producer/consumer trace. -/
inductive BufOp where
  | push (e : MbsEvent)
  | drain (n : Nat) (gotLock : Bool)

/-- All pushed events of a trace, in push order. -/
def pushedOf : List BufOp → List MbsEvent
  | [] => []
  | BufOp.push e :: rest => e :: pushedOf rest
  | BufOp.drain _ _ :: rest => pushedOf rest

/-- Run a trace against a buffer: final buffer contents, and the sequence of
drain results in call order (a drain that fails to get the lock returns the
empty sequence, a successful one removes `min n size` events from the head,
exactly as in `getEventData`). -/
def runOps (buf : List MbsEvent) : List BufOp → List MbsEvent × List (List MbsEvent)
  | [] => (buf, [])
  | BufOp.push e :: rest => runOps (buf ++ [e]) rest
  | BufOp.drain n glock :: rest =>
    if glock then
      let k := min n buf.length
      let r := runOps (buf.drop k) rest
      (r.1, buf.take k :: r.2)
    else
      let r := runOps buf rest
      (r.1, [] :: r.2)

/-! ### Helper lemmas -/

/-- Conservation invariant of the push/drain trace model: what has been drained
so far, followed by what is still buffered, is the initial buffer followed by
everything pushed. -/
theorem runOps_conservation (ops : List BufOp) (buf : List MbsEvent) :
    ((runOps buf ops).2).flatten ++ (runOps buf ops).1 = buf ++ pushedOf ops := by
  induction ops generalizing buf with
  | nil => simp [runOps, pushedOf]
  | cons op rest ih =>
    cases op with
    | push e =>
      have h := ih (buf ++ [e])
      simp only [runOps, pushedOf] at h ⊢
      rw [h]
      simp
    | drain n glock =>
      by_cases hg : glock
      · subst hg
        have h := ih (buf.drop (min n buf.length))
        simp only [runOps, if_pos, pushedOf] at h ⊢
        rw [List.flatten_cons, List.append_assoc, h, ← List.append_assoc,
          List.take_append_drop]
      · simpa [runOps, hg, pushedOf] using ih buf

/-! ### Claim theorems -/

/-- C7: connect with an empty file list fails immediately: it returns false,
opens no source, spawns no receiver or file-seeker thread, and leaves the whole
connection state unchanged. -/
theorem connectFileList_empty_fails (s : ClientState) (pool openOk : Bool) :
    connectFileList s [] pool openOk = (s, false) := rfl

/-- C8: after disconnect, isConnected is false, both worker thread lists are
empty, the server name is the placeholder "not connected", the source handle is
closed and nulled, and the call returns true; a second disconnect in a row is a
no-op that also returns true. -/
theorem disconnect_postconditions (s : ClientState) :
    isConnected (disconnect s).1 = false ∧
    (disconnect s).1.receiverThread = 0 ∧
    (disconnect s).1.fileseekThread = 0 ∧
    getEventServerName (disconnect s).1 = "not connected".toList ∧
    (disconnect s).1.inputChannel = false ∧
    (disconnect s).2 = true ∧
    disconnect (disconnect s).1 = ((disconnect s).1, true) :=
  ⟨rfl, rfl, rfl, rfl, rfl, rfl, rfl⟩

/-- C1 counterexample: after a single push and no drain, the concatenation of
the drained sequences (empty) does not equal the pushed sequence, so the claim
fails for traces that leave events in the buffer. -/
theorem eventBuffer_drain_concat_counterexample :
    ((runOps [] [BufOp.push ⟨0, [1]⟩]).2).flatten
      ≠ pushedOf [BufOp.push ⟨0, [1]⟩] := by decide

/-- C1 (amended): for every sequence of pushes interleaved with drains, starting
from an empty buffer, the concatenation of all drained sequences in call order
followed by the events still in the buffer equals the pushed sequence; hence
each pushed event appears in at most one drain result, in push order, and in
exactly one when the trace ends with the buffer drained empty. -/
theorem eventBuffer_drain_conservation (ops : List BufOp) :
    ((runOps [] ops).2).flatten ++ (runOps [] ops).1 = pushedOf ops := by
  simpa using runOps_conservation ops []

/-- C2: getEventData never blocks: losing the try-lock returns immediately with
the buffer and destination untouched; obtaining it moves exactly
min(maxCount, bufferSize) events from the buffer head, in order, to the
destination; maxCount at least the buffer size empties the buffer; maxCount 0
or an empty buffer removes nothing and returns the destination unchanged. -/
theorem getEventData_drain_spec (s : ClientState) (dest : List MbsEvent) (n : Nat) :
    getEventData s dest n false = (s, dest) ∧
    (getEventData s dest n true).2
      = dest ++ s.eventBuffer.take (min n s.eventBuffer.length) ∧
    (getEventData s dest n true).1.eventBuffer
      = s.eventBuffer.drop (min n s.eventBuffer.length) ∧
    (s.eventBuffer.length ≤ n → (getEventData s dest n true).1.eventBuffer = []) ∧
    (getEventData s dest 0 true).1.eventBuffer = s.eventBuffer ∧
    (getEventData s dest 0 true).2 = dest ∧
    (s.eventBuffer = [] →
      (getEventData s dest n true).1.eventBuffer = s.eventBuffer ∧
      (getEventData s dest n true).2 = dest) := by
  have htake : ∀ m : Nat, (getEventData s dest m true).2
      = dest ++ s.eventBuffer.take (min m s.eventBuffer.length) := by
    intro m
    by_cases h : 0 < min m s.eventBuffer.length
    · simp [getEventData, h]
    · have hk : min m s.eventBuffer.length = 0 := Nat.eq_zero_of_not_pos h
      simp [getEventData, h, hk]
  have hdrop : ∀ m : Nat, (getEventData s dest m true).1.eventBuffer
      = s.eventBuffer.drop (min m s.eventBuffer.length) := by
    intro m
    by_cases h : 0 < min m s.eventBuffer.length
    · simp [getEventData, h]
    · have hk : min m s.eventBuffer.length = 0 := Nat.eq_zero_of_not_pos h
      simp [getEventData, h, hk]
  refine ⟨rfl, htake n, hdrop n, ?_, ?_, ?_, ?_⟩
  · intro hle
    rw [hdrop n, Nat.min_eq_right hle] at *
    exact List.drop_length s.eventBuffer
  · rw [hdrop 0]; simp
  · rw [htake 0]; simp
  · intro hemp
    refine ⟨?_, ?_⟩
    · rw [hdrop n, hemp]; simp
    · rw [htake n, hemp]; simp

/-- C2 witness: a concrete drain with maxCount above the buffer size empties a
two-event buffer. -/
theorem getEventData_drain_spec_witness :
    (({ initState with eventBuffer := [⟨1, [1]⟩, ⟨2, [2]⟩] } :
        ClientState).eventBuffer.length ≤ 5) ∧
    (getEventData { initState with eventBuffer := [⟨1, [1]⟩, ⟨2, [2]⟩] } [] 5
        true).1.eventBuffer = [] :=
  ⟨by decide,
    (getEventData_drain_spec
      { initState with eventBuffer := [⟨1, [1]⟩, ⟨2, [2]⟩] } [] 5).2.2.2.1
      (by decide)⟩

/-- C10: getEventData appends to the destination: the previous destination
contents are preserved in place with the drained events after them, and every
client field other than the event buffer and the buffered-events counter is
unchanged. -/
theorem getEventData_appends_frame (s : ClientState) (dest : List MbsEvent)
    (n : Nat) (glock : Bool) :
    ((getEventData s dest n glock).2).take dest.length = dest ∧
    (getEventData s dest n glock).2
      = dest ++ (if glock then s.eventBuffer.take (min n s.eventBuffer.length) else []) ∧
    (getEventData s dest n glock).1.filelist = s.filelist ∧
    (getEventData s dest n glock).1.currentFileIndex = s.currentFileIndex ∧
    (getEventData s dest n glock).1.disconnected = s.disconnected ∧
    (getEventData s dest n glock).1.receiverThread = s.receiverThread ∧
    (getEventData s dest n glock).1.fileseekThread = s.fileseekThread ∧
    (getEventData s dest n glock).1.inputChannel = s.inputChannel ∧
    (getEventData s dest n glock).1.fileHeader = s.fileHeader ∧
    (getEventData s dest n glock).1.bufferHeader = s.bufferHeader ∧
    (getEventData s dest n glock).1.mbsSource = s.mbsSource ∧
    (getEventData s dest n glock).1.nReceivedEvents = s.nReceivedEvents ∧
    (getEventData s dest n glock).1.sizeOfReceivedData = s.sizeOfReceivedData ∧
    (getEventData s dest n glock).1.noMoreEvents = s.noMoreEvents ∧
    (getEventData s dest n glock).1.maxEventBufferSize = s.maxEventBufferSize := by
  cases glock with
  | false =>
    refine ⟨?_, ?_, rfl, rfl, rfl, rfl, rfl, rfl, rfl, rfl, rfl, rfl, rfl, rfl, rfl⟩
    · simp [getEventData]
    · simp [getEventData]
  | true =>
    by_cases h : 0 < min n s.eventBuffer.length
    · refine ⟨?_, ?_, ?_, ?_, ?_, ?_, ?_, ?_, ?_, ?_, ?_, ?_, ?_, ?_, ?_⟩ <;>
        simp [getEventData, h, List.take_left']
    · have hk : min n s.eventBuffer.length = 0 := Nat.eq_zero_of_not_pos h
      refine ⟨?_, ?_, ?_, ?_, ?_, ?_, ?_, ?_, ?_, ?_, ?_, ?_, ?_, ?_, ?_⟩ <;>
        simp [getEventData, h, hk]

/-- Effect of the whole subevent loop, by induction over the subevent call
results: the buffer gains exactly the non-empty-payload events in order, the
event counter gains their number, the byte counter gains their total payload
bytes, and the other fields are untouched. -/
theorem foldl_subeventStep (ts : Nat) (scs : List (Option (List Int)))
    (s : ClientState) :
    (scs.foldl (subeventStep ts) s).eventBuffer
      = s.eventBuffer ++ ((scs.filterMap id).filter (fun p => 0 < p.length)).map
          (fun p => ⟨ts, p.map toUInt32Val⟩) ∧
    (scs.foldl (subeventStep ts) s).nReceivedEvents
      = s.nReceivedEvents + ((scs.filterMap id).filter (fun p => 0 < p.length)).length ∧
    (scs.foldl (subeventStep ts) s).sizeOfReceivedData
      = s.sizeOfReceivedData
        + (((scs.filterMap id).filter (fun p => 0 < p.length)).map
            (fun p => p.length * 4)).sum ∧
    (scs.foldl (subeventStep ts) s).noMoreEvents = s.noMoreEvents ∧
    (scs.foldl (subeventStep ts) s).nEventsInBuffer = s.nEventsInBuffer := by
  induction scs generalizing s with
  | nil => simp
  | cons sc rest ih =>
    cases sc with
    | none => simpa [subeventStep] using ih s
    | some payload =>
      by_cases hp : 0 < payload.length
      · obtain ⟨h1, h2, h3, h4, h5⟩ := ih { s with
          eventBuffer := s.eventBuffer ++ [⟨ts, payload.map toUInt32Val⟩],
          sizeOfReceivedData := s.sizeOfReceivedData + payload.length * 4,
          nReceivedEvents := s.nReceivedEvents + 1 }
        have hstep : subeventStep ts s (some payload)
            = { s with
                eventBuffer := s.eventBuffer ++ [⟨ts, payload.map toUInt32Val⟩],
                sizeOfReceivedData := s.sizeOfReceivedData + payload.length * 4,
                nReceivedEvents := s.nReceivedEvents + 1 } := by
          simp [subeventStep, hp]
        have hlist : ((some payload :: rest).filterMap id).filter
              (fun p => 0 < p.length)
            = payload :: (rest.filterMap id).filter (fun p => 0 < p.length) := by
          simp [hp]
        refine ⟨?_, ?_, ?_, ?_, ?_⟩
        · rw [List.foldl_cons, hstep, h1, hlist]; simp
        · rw [List.foldl_cons, hstep, h2, hlist]; simp; omega
        · rw [List.foldl_cons, hstep, h3, hlist]; simp; omega
        · rw [List.foldl_cons, hstep, h4]
        · rw [List.foldl_cons, hstep, h5]
      · simpa [subeventStep, hp] using ih s

/-- Byte count of the constructed events equals the byte count of the raw
payloads (4 bytes per 32-bit word). -/
theorem sum_map_payload (ts : Nat) (L : List (List Int)) :
    ((L.map (fun p => (⟨ts, p.map toUInt32Val⟩ : MbsEvent))).map
        (fun e => e.data.length * 4)).sum
      = (L.map (fun p => p.length * 4)).sum := by
  induction L with
  | nil => rfl
  | cons p rest ih =>
    simp only [List.map_cons, List.sum_cons, List.length_map]
    rw [ih]

/-- Net effect of one success-branch iteration on the buffer and both session
counters, phrased through `pushedOfFetch`. -/
theorem processFetch_effect (s : ClientState) (f : FetchData) :
    (processFetch s f).eventBuffer = s.eventBuffer ++ pushedOfFetch f ∧
    (processFetch s f).nReceivedEvents
      = s.nReceivedEvents + (pushedOfFetch f).length ∧
    (processFetch s f).sizeOfReceivedData
      = s.sizeOfReceivedData
        + ((pushedOfFetch f).map (fun e => e.data.length * 4)).sum := by
  have hfold := foldl_subeventStep (mbsTimestampOf f.timeHigh f.timeLow) f.subcalls
    { s with noMoreEvents := false }
  refine ⟨?_, ?_, ?_⟩
  · simpa [processFetch, pushedOfFetch] using hfold.1
  · simpa [processFetch, pushedOfFetch] using hfold.2.1
  · have h := hfold.2.2.1
    have hsum := sum_map_payload (mbsTimestampOf f.timeHigh f.timeLow)
      ((f.subcalls.filterMap id).filter (fun p => 0 < p.length))
    simp only [processFetch, pushedOfFetch]
    rw [hsum]
    exact h

/-- Neither a failed nor a successful open call touches the session counters. -/
theorem openLmdFile_counters (s : ClientState) (src : List Char) (st : SrcType)
    (ok : Bool) :
    (openLmdFile s src st ok).1.nReceivedEvents = s.nReceivedEvents ∧
    (openLmdFile s src st ok).1.sizeOfReceivedData = s.sizeOfReceivedData := by
  cases ok <;> simp [openLmdFile]

/-- One processed fetch never decreases either counter. -/
theorem processFetch_counters_le (s : ClientState) (f : FetchData) :
    s.nReceivedEvents ≤ (processFetch s f).nReceivedEvents ∧
    s.sizeOfReceivedData ≤ (processFetch s f).sizeOfReceivedData := by
  refine ⟨?_, ?_⟩
  · rw [(processFetch_effect s f).2.1]; exact Nat.le_add_right _ _
  · rw [(processFetch_effect s f).2.2]; exact Nat.le_add_right _ _

/-- Along any receiver schedule, both session counters are non-decreasing. -/
theorem receiverRun_counters_mono (outs : List FetchOutcome) (s : ClientState) :
    s.nReceivedEvents ≤ (receiverRun s outs).nReceivedEvents ∧
    s.sizeOfReceivedData ≤ (receiverRun s outs).sizeOfReceivedData := by
  induction outs generalizing s with
  | nil => exact ⟨Nat.le_refl _, Nat.le_refl _⟩
  | cons o rest ih =>
    by_cases hc : (s.inputChannel && !s.disconnected) = true
    · cases o with
      | success f =>
        have h1 := processFetch_counters_le s f
        have h2 := ih (processFetch s f)
        simp only [receiverRun, hc, if_true]
        exact ⟨Nat.le_trans h1.1 h2.1, Nat.le_trans h1.2 h2.2⟩
      | noMore ok =>
        by_cases hnext : s.currentFileIndex + 1 < s.filelist.length
        · have hop := openLmdFile_counters
            { s with currentFileIndex := s.currentFileIndex + 1 }
            (s.filelist.getD (s.currentFileIndex + 1) []) SrcType.fileT ok
          by_cases hok : (openLmdFile
              { s with currentFileIndex := s.currentFileIndex + 1 }
              (s.filelist.getD (s.currentFileIndex + 1) []) SrcType.fileT ok).2 = true
          · have h2 := ih (openLmdFile
              { s with currentFileIndex := s.currentFileIndex + 1 }
              (s.filelist.getD (s.currentFileIndex + 1) []) SrcType.fileT ok).1
            simp only [receiverRun, hc, if_true, hnext, if_pos, hok]
            exact ⟨Nat.le_trans (Nat.le_of_eq hop.1.symm) h2.1,
              Nat.le_trans (Nat.le_of_eq hop.2.symm) h2.2⟩
          · simp only [receiverRun, hc, if_true, hnext, if_pos]
            rw [if_neg hok]
            exact ⟨Nat.le_of_eq hop.1.symm, Nat.le_of_eq hop.2.symm⟩
        · have h2 := ih { s with noMoreEvents := true }
          simp only [receiverRun, hc, if_true]
          rw [if_neg hnext]
          exact h2
      | fragment =>
        have h2 := ih s
        simpa only [receiverRun, hc, if_true] using h2
      | other =>
        have h2 := ih s
        simpa only [receiverRun, hc, if_true] using h2
    · simp [receiverRun, hc]

/-- C5: every event pushed from one successfully fetched raw event carries the
timestamp high*1000 + low computed from the buffer header's two time components
in unsigned 64-bit arithmetic, and all sub-events of that single fetch share
that one timestamp. -/
theorem processFetch_shared_timestamp (s : ClientState) (f : FetchData) :
    (processFetch s f).eventBuffer = s.eventBuffer ++ pushedOfFetch f ∧
    ∀ e ∈ pushedOfFetch f, e.timestamp = mbsTimestampOf f.timeHigh f.timeLow := by
  constructor
  · exact (processFetch_effect s f).1
  · intro e he
    simp only [pushedOfFetch, List.mem_map] at he
    obtain ⟨p, _, hp⟩ := he
    rw [← hp]

/-- C9: the file list persists across sessions: single-source connect appends
to the existing list but always opens index 0, so after a successful connect to
srcA and a disconnect, a second connect to a different srcB succeeds yet opens
(and reports as server name) srcA, not srcB. -/
theorem connect_reuses_first_file (srcA srcB : List Char) (p1 p2 : Bool)
    (hne : srcA ≠ srcB) :
    (connect initState srcA ConnectionOption.file p1 true).2 = true ∧
    (connect (disconnect (connect initState srcA ConnectionOption.file p1 true).1).1
        srcB ConnectionOption.file p2 true).2 = true ∧
    getEventServerName (connect (disconnect (connect initState srcA
        ConnectionOption.file p1 true).1).1 srcB ConnectionOption.file p2 true).1
      = srcA ∧
    getEventServerName (connect (disconnect (connect initState srcA
        ConnectionOption.file p1 true).1).1 srcB ConnectionOption.file p2 true).1
      ≠ srcB := by
  cases p1 <;> cases p2 <;> exact ⟨rfl, rfl, rfl, hne⟩

/-- C9 witness: connect to "a.lmd", disconnect, connect to "b.lmd" — the opened
server name is still "a.lmd". -/
theorem connect_reuses_first_file_witness :
    ("a.lmd".toList ≠ "b.lmd".toList) ∧
    getEventServerName (connect (disconnect (connect initState ("a.lmd".toList)
        ConnectionOption.file true true).1).1 ("b.lmd".toList)
        ConnectionOption.file false true).1 = "a.lmd".toList :=
  ⟨by decide,
    (connect_reuses_first_file ("a.lmd".toList) ("b.lmd".toList) true false
      (by decide)).2.2.1⟩

/-- With at least four characters, the code's extension test inspects exactly
the last three characters, lower-cased. -/
theorem fileExtOf_eq_lastThree (s : List Char) (h : 4 ≤ s.length) :
    fileExtOf s = (s.drop (s.length - 3)).map Char.toLower := by
  have hlen : (s.drop (s.length - 3)).length ≤ s.length - 1 := by
    simp only [List.length_drop]
    omega
  simp [fileExtOf, substrCpp, List.take_of_length_le hlen]

/-- C4 counterexample: the 6-character identifier "a.klmd" has filename
extension "klmd", which is not "lmd", yet auto-detect selects the file kind,
because the code compares only the last three characters; so "file-kind exactly
when the filename extension is lmd" fails on this input. -/
theorem connect_auto_ext_counterexample :
    resolveSourceType ("a.klmd".toList) ConnectionOption.automatic
      = some SrcType.fileT ∧
    specFilenameExtension ("a.klmd".toList) ≠ "lmd".toList := by decide

/-- C4 (amended): auto-detect connect fails for identifiers shorter than 5
characters, returning false, opening nothing and spawning no workers; for
identifiers of length at least 5 it selects the file kind exactly when the last
three characters, lower-cased, are "lmd"; and whenever the stream kind is
resolved, the poolForNextFile request is silently dropped and no seeker thread
is spawned. -/
theorem connect_auto_spec (s : ClientState) (src : List Char) (pool openOk : Bool) :
    (src.length < 5 →
      (connect s src ConnectionOption.automatic pool openOk).2 = false ∧
      (connect s src ConnectionOption.automatic pool openOk).1.inputChannel
        = s.inputChannel ∧
      (connect s src ConnectionOption.automatic pool openOk).1.receiverThread
        = s.receiverThread ∧
      (connect s src ConnectionOption.automatic pool openOk).1.fileseekThread
        = s.fileseekThread ∧
      (connect s src ConnectionOption.automatic pool openOk).1.filelist
        = s.filelist) ∧
    (5 ≤ src.length →
      (resolveSourceType src ConnectionOption.automatic = some SrcType.fileT ↔
        (src.drop (src.length - 3)).map Char.toLower = "lmd".toList)) ∧
    (resolveSourceType src ConnectionOption.automatic = some SrcType.streamT →
      (connect s src ConnectionOption.automatic pool openOk).1.fileseekThread
        = s.fileseekThread) := by
  refine ⟨?_, ?_, ?_⟩
  · intro h
    simp [connect, resolveSourceType, h]
  · intro h
    have h3 : ¬ src.length < 5 := Nat.not_lt.mpr h
    rw [← fileExtOf_eq_lastThree src (by omega)]
    by_cases he : fileExtOf src = "lmd".toList
    · simp [resolveSourceType, h3, he]
    · simp [resolveSourceType, h3, he]
  · intro hstream
    unfold connect
    rw [hstream]
    cases openOk <;> simp [openLmdFile]

/-- C4 witness: the short identifier "xy" fails; "x.lmd" resolves to the file
kind; "192.168.1.1" resolves to the stream kind and a connect on it spawns no
seeker thread even though poolForNextFile was requested. -/
theorem connect_auto_spec_witness :
    (("xy".toList).length < 5 ∧
      (connect initState ("xy".toList) ConnectionOption.automatic true true).2
        = false) ∧
    (5 ≤ ("x.lmd".toList).length ∧
      resolveSourceType ("x.lmd".toList) ConnectionOption.automatic
        = some SrcType.fileT) ∧
    (resolveSourceType ("192.168.1.1".toList) ConnectionOption.automatic
        = some SrcType.streamT ∧
      (connect initState ("192.168.1.1".toList) ConnectionOption.automatic true
          true).1.fileseekThread = initState.fileseekThread) := by
  refine ⟨⟨by decide, ?_⟩, ⟨by decide, ?_⟩, ⟨by decide, ?_⟩⟩
  · exact ((connect_auto_spec initState ("xy".toList) true true).1 (by decide)).1
  · exact ((connect_auto_spec initState ("x.lmd".toList) true true).2.1
      (by decide)).mpr (by decide)
  · exact (connect_auto_spec initState ("192.168.1.1".toList) true true).2.2
      (by decide)

/-- A character absent from a string is not found by rfind. -/
theorem rfindChar_eq_none (c : Char) (l : List Char) (h : c ∉ l) :
    rfindChar c l = none := by
  induction l with
  | nil => rfl
  | cons x xs ih =>
    have hx : ¬ x = c := by
      intro he
      subst he
      exact h (List.mem_cons_self x xs)
    have hxs : c ∉ xs := fun hm => h (List.mem_cons_of_mem x hm)
    simp [rfindChar, ih hxs, hx]

/-- rfind locates the last occurrence: with no occurrence to the right of it,
the marked position is returned. -/
theorem rfindChar_append_cons (c : Char) (p r : List Char) (h : c ∉ r) :
    rfindChar c (p ++ c :: r) = some p.length := by
  induction p with
  | nil =>
    simp [rfindChar, rfindChar_eq_none c r h]
  | cons x xs ih =>
    simp only [List.cons_append, rfindChar, List.append_eq, ih, List.length_cons]

/-- The leading digit run of an all-digit string is the whole string. -/
theorem takeDigits_eq_self (l : List Char) (h : ∀ x ∈ l, x.isDigit) :
    takeDigits l = l := by
  induction l with
  | nil => rfl
  | cons x xs ih =>
    have hx := h x (List.mem_cons_self x xs)
    have hxs : ∀ y ∈ xs, y.isDigit := fun y hy => h y (List.mem_cons_of_mem x hy)
    simp [takeDigits, hx, ih hxs]

/-- stoul on a non-empty all-digit string whose value is inside the
`unsigned long` range parses the whole string without throwing. -/
theorem stoulModel_digits (l : List Char) (hne : l ≠ []) (h : ∀ x ∈ l, x.isDigit)
    (hval : digitsToNat l < 2 ^ 64) :
    stoulModel l = some (digitsToNat l) := by
  simp [stoulModel, takeDigits_eq_self l h, hne]
  exact hval

/-- C3 counterexample: the input "data/run_0007.dat" satisfies the claim's
premise (last component of the form prefix_NUMBER.ext with a parseable decimal
token after the '_'), yet the computed successor is "data/run_0008.lmd" — the
code always emits extension ".lmd" — and not the claimed "data/run_0008.dat". -/
theorem newFileSeekerNext_ext_counterexample :
    newFileSeekerNext ("data/run_0007.dat".toList)
      = some ("data/run_0008.lmd".toList) ∧
    ("data/run_0008.lmd".toList) ≠ ("data/run_0008.dat".toList) := by decide

/-- C3 (amended): for every path dir/stem_DIGITS.lmd (stem free of '/', DIGITS a
non-empty decimal token whose value stoul can return, i.e. below 2^64), one
seeker iteration computes the successor
dir/stem_((DIGITS truncated to 32 bits) + 1, again modulo 2^32, zero-padded to
the same width).lmd in the same directory — the parsed number passes through
the `uint32_t` variable of line 181 and so wraps at 2^32, and the emitted
extension is always ".lmd", whatever the input's extension was. -/
theorem newFileSeekerNext_spec (dir stem digits : List Char)
    (hstem : '/' ∉ stem)
    (hne : digits ≠ [])
    (hdig : ∀ c ∈ digits, c.isDigit)
    (hlen : digits.length < 2 ^ 64)
    (hval : digitsToNat digits < 2 ^ 64) :
    newFileSeekerNext (dir ++ '/' :: (stem ++ '_' :: (digits ++ ".lmd".toList)))
      = some (dir ++ '/' :: (stem ++ '_' ::
          (zeroPad digits.length ((digitsToNat digits % 2 ^ 32 + 1) % 2 ^ 32)
            ++ ".lmd".toList))) := by
  have hslashd : '/' ∉ digits := fun hm => absurd (hdig '/' hm) (by decide)
  have husd : '_' ∉ digits := fun hm => absurd (hdig '_' hm) (by decide)
  have hname_slash : '/' ∉ stem ++ '_' :: (digits ++ ".lmd".toList) := by
    simp only [List.mem_append, List.mem_cons, not_or]
    exact ⟨hstem, by decide, hslashd, by decide⟩
  have hus : '_' ∉ digits ++ ".lmd".toList := by
    simp only [List.mem_append, not_or]
    exact ⟨husd, by decide⟩
  have hfind_slash : rfindChar '/'
        (dir ++ '/' :: (stem ++ '_' :: (digits ++ ".lmd".toList)))
      = some dir.length := rfindChar_append_cons '/' dir _ hname_slash
  have hfn : pathFilename (dir ++ '/' :: (stem ++ '_' :: (digits ++ ".lmd".toList)))
      = stem ++ '_' :: (digits ++ ".lmd".toList) := by
    simp only [pathFilename, hfind_slash]
    rw [List.append_cons]
    exact List.drop_left' (by simp)
  have hpp : pathParent (dir ++ '/' :: (stem ++ '_' :: (digits ++ ".lmd".toList)))
      = dir := by
    simp only [pathParent, hfind_slash]
    exact List.take_left' rfl
  have hfind_us : rfindChar '_' (stem ++ '_' :: (digits ++ ".lmd".toList))
      = some stem.length := rfindChar_append_cons '_' stem _ hus
  have hlmd4 : (".lmd".toList).length = 4 := by decide
  have hlen_name : (stem ++ '_' :: (digits ++ ".lmd".toList)).length
      = stem.length + digits.length + 5 := by
    simp [List.length_append, List.length_cons, hlmd4]
    omega
  have hcnt : ((((stem ++ '_' :: (digits ++ ".lmd".toList)).length : Int)
      - (stem.length : Int) - 5).emod (2 ^ 64)).toNat = digits.length := by
    rw [hlen_name]
    have heq : (((stem.length + digits.length + 5 : Nat) : Int)
        - (stem.length : Int) - 5) = (digits.length : Int) := by
      push_cast
      ring
    have h5 : (digits.length : Int) % (2 ^ 64) = (digits.length : Int) :=
      Int.emod_eq_of_lt (Int.natCast_nonneg _) (by exact_mod_cast hlen)
    rw [heq,
      show ((digits.length : Int).emod (2 ^ 64))
        = (digits.length : Int) % (2 ^ 64) from rfl, h5]
    exact Int.toNat_natCast _
  have hsub : substrCpp (stem ++ '_' :: (digits ++ ".lmd".toList))
      (stem.length + 1) digits.length = digits := by
    unfold substrCpp
    have hdrop : (stem ++ '_' :: (digits ++ ".lmd".toList)).drop (stem.length + 1)
        = digits ++ ".lmd".toList := by
      rw [List.append_cons]
      exact List.drop_left' (by simp)
    rw [hdrop]
    exact List.take_left' rfl
  have htake : (stem ++ '_' :: (digits ++ ".lmd".toList)).take stem.length = stem :=
    List.take_left' rfl
  simp only [newFileSeekerNext, hfn, hpp, hfind_us, Option.some_bind, hcnt, hsub,
    stoulModel_digits digits hne hdig hval, Option.map_some', htake]

/-- C3 witness: "data/run_0007.lmd" yields "data/run_0008.lmd";
"data/run_9999.lmd" yields "data/run_10000.lmd" (the width grows rather than
truncating); and "data/run_4294967295.lmd" yields "data/run_0000000000.lmd"
(the number wraps in the 32-bit variable). -/
theorem newFileSeekerNext_spec_witness :
    newFileSeekerNext ("data/run_0007.lmd".toList)
        = some ("data/run_0008.lmd".toList) ∧
    newFileSeekerNext ("data/run_9999.lmd".toList)
        = some ("data/run_10000.lmd".toList) ∧
    newFileSeekerNext ("data/run_4294967295.lmd".toList)
        = some ("data/run_0000000000.lmd".toList) :=
  ⟨newFileSeekerNext_spec ("data".toList) ("run".toList) ("0007".toList)
      (by decide) (by decide) (by decide) (by decide) (by decide),
    newFileSeekerNext_spec ("data".toList) ("run".toList) ("9999".toList)
      (by decide) (by decide) (by decide) (by decide) (by decide),
    newFileSeekerNext_spec ("data".toList) ("run".toList) ("4294967295".toList)
      (by decide) (by decide) (by decide) (by decide) (by decide)⟩

/-- C5 witness: a concrete fetch with time components (3, 4) and one non-empty
sub-event yields an event stamped 3*1000 + 4 = 3004. -/
theorem processFetch_shared_timestamp_witness :
    ((⟨3004, [5]⟩ : MbsEvent) ∈ pushedOfFetch ⟨3, 4, [some [5], none, some []]⟩) ∧
    (⟨3004, [5]⟩ : MbsEvent).timestamp = mbsTimestampOf 3 4 :=
  ⟨by decide,
    (processFetch_shared_timestamp initState ⟨3, 4, [some [5], none, some []]⟩).2
      ⟨3004, [5]⟩ (by decide)⟩

/-- C6: for one decoded fetch, exactly the sub-events with non-empty payload
are pushed (in order; empty ones change nothing), the received-events counter
grows by their number, the received-bytes counter grows by their total payload
size in bytes (4 bytes per word), and over any receiver schedule both counters
are monotonically non-decreasing. -/
theorem processFetch_counters_spec (s : ClientState) (f : FetchData)
    (outs : List FetchOutcome) :
    (processFetch s f).eventBuffer = s.eventBuffer ++ pushedOfFetch f ∧
    (processFetch s f).nReceivedEvents
      = s.nReceivedEvents + (pushedOfFetch f).length ∧
    (processFetch s f).sizeOfReceivedData
      = s.sizeOfReceivedData + ((pushedOfFetch f).map (fun e => e.data.length * 4)).sum ∧
    s.nReceivedEvents ≤ (receiverRun s outs).nReceivedEvents ∧
    s.sizeOfReceivedData ≤ (receiverRun s outs).sizeOfReceivedData :=
  ⟨(processFetch_effect s f).1, (processFetch_effect s f).2.1,
    (processFetch_effect s f).2.2, (receiverRun_counters_mono outs s).1,
    (receiverRun_counters_mono outs s).2⟩

end MbsVerify
